import Mathlib

/-!
Shallow embedding of the client-side state management layer of the
Regional_Cybersec_Chatbot_UK_Malta repository:
* the multi-conversation chat store (`Scripts/chat.js`, authoritative
  variant with pin/delete), and
* the article feed pipeline (`UK/scripts/main.js`).

Persisted values are modelled at the JSON-value level: `localStorage`
holds `JSON.stringify` renderings, and since `JSON.parse` inverts
`JSON.stringify` on object graphs of strings/booleans/arrays/objects,
we track the JSON value itself instead of its string rendering.
-/

/-- A JSON value, as produced by `JSON.stringify`/`JSON.parse`. -/
inductive JVal where
  | jnull : JVal
  | jbool : Bool → JVal
  | jstr : String → JVal
  | jarr : List JVal → JVal
  | jobj : List (String × JVal) → JVal

/-- One chat message: `{ sender: "user"|"bot", text: string }`. -/
structure Msg where
  sender : String
  text : String
deriving DecidableEq, Repr

/-- One conversation, as stored in the `chats` array of `chat.js`. -/
structure Chat where
  id : String
  title : String
  messages : List Msg
  pinned : Bool
deriving DecidableEq, Repr

/-- The seed bot message every new chat is created with. -/
def seedMsg : Msg := ⟨"bot", "Hello! How can I help you?"⟩

/-- The chat object built by `createNewChat` (`chat_${Date.now()}`;
`now` stands for the `Date.now()` timestamp). -/
def newChat (now : Nat) : Chat :=
  ⟨"chat_" ++ toString now, "New Chat", [seedMsg], false⟩

/-- JSON encoding of a message, as `JSON.stringify` lays it out. -/
def encodeMsg (m : Msg) : JVal :=
  .jobj [("sender", .jstr m.sender), ("text", .jstr m.text)]

/-- Read a message back out of a JSON value (field access as the
rendering code performs it). -/
def decodeMsg (j : JVal) : Option Msg :=
  match j with
  | .jobj fs =>
    match fs.lookup "sender", fs.lookup "text" with
    | some (.jstr s), some (.jstr t) => some ⟨s, t⟩
    | _, _ => none
  | _ => none

/-- Decode a list of message values, failing if any entry fails. -/
def decodeMsgs : List JVal → Option (List Msg)
  | [] => some []
  | j :: js =>
    match decodeMsg j, decodeMsgs js with
    | some m, some ms => some (m :: ms)
    | _, _ => none

/-- JSON encoding of one conversation. -/
def encodeChat (c : Chat) : JVal :=
  .jobj [("id", .jstr c.id), ("title", .jstr c.title),
         ("messages", .jarr (c.messages.map encodeMsg)),
         ("pinned", .jbool c.pinned)]

/-- JS truthiness of the `pinned` field: an absent or non-boolean field
reads as `false` (older stored chats lack the field). -/
def decodePinned : Option JVal → Bool
  | some (.jbool b) => b
  | _ => false

/-- Read one conversation back out of a JSON value. -/
def decodeChat (j : JVal) : Option Chat :=
  match j with
  | .jobj fs =>
    match fs.lookup "id", fs.lookup "title", fs.lookup "messages" with
    | some (.jstr i), some (.jstr t), some (.jarr ms) =>
      match decodeMsgs ms with
      | some msgs => some ⟨i, t, msgs, decodePinned (fs.lookup "pinned")⟩
      | none => none
    | _, _, _ => none
  | _ => none

/-- Decode a list of conversation values. -/
def decodeChatList : List JVal → Option (List Chat)
  | [] => some []
  | j :: js =>
    match decodeChat j, decodeChatList js with
    | some c, some cs => some (c :: cs)
    | _, _ => none

/-- `JSON.stringify(chats)`: the whole store as one JSON array. -/
def encodeChats (cs : List Chat) : JVal := .jarr (cs.map encodeChat)

/-- Inverse of `encodeChats` at the JSON level. -/
def decodeChats (j : JVal) : Option (List Chat) :=
  match j with
  | .jarr xs => decodeChatList xs
  | _ => none

/-- `localStorage.setItem("activeChatId", activeChatId)` coerces a null
id to the string `"null"`. -/
def activeStr : Option String → String
  | some a => a
  | none => "null"

/-- Startup read `localStorage.getItem("activeChatId") || null`:
an absent key or empty string reads as null. -/
def loadActive : Option String → Option String
  | some s => if s = "" then none else some s
  | none => none

/-- Startup read `JSON.parse(localStorage.getItem("chats")) || []`:
an absent key or undecodable value yields the empty store. -/
def loadChats (v : Option JVal) : List Chat :=
  match v with
  | some j => (decodeChats j).getD []
  | none => []

/-- The whole client state of `chat.js`: the store (`chats`,
`activeChatId`), the two `localStorage` keys it owns, and the message
pane DOM (`messagesEl` rendered messages plus the transient typing
indicator, which is a plain DOM node and never part of `messages`). -/
structure AppState where
  chats : List Chat
  activeChatId : Option String
  storedChats : Option JVal
  storedActive : Option String
  pane : List Msg
  typing : Bool

/-- `saveState()`: write-through of the full store to `localStorage`. -/
def saveState (s : AppState) : AppState :=
  { s with storedChats := some (encodeChats s.chats),
           storedActive := some (activeStr s.activeChatId) }

/-- `loadChat(chatId)`: clear the message pane (which also drops any
typing indicator node) and re-render the chat's messages, if found. -/
def loadChat (cid : String) (s : AppState) : AppState :=
  match s.chats.find? (fun c => c.id == cid) with
  | none => { s with pane := [], typing := false }
  | some c => { s with pane := c.messages, typing := false }

/-- `createNewChat()`: unshift a fresh chat, make it active, persist,
re-render (`renderSidebar` touches no state), and load it. -/
def createNewChat (now : Nat) (s : AppState) : AppState :=
  let c := newChat now
  loadChat c.id (saveState { s with chats := c :: s.chats, activeChatId := some c.id })

/-- The startup block of `chat.js`: if there is no active id, or it does
not resolve to a stored chat, create a fresh chat; otherwise render. -/
def initApp (now : Nat) (s : AppState) : AppState :=
  match s.activeChatId with
  | none => createNewChat now s
  | some aid =>
    if s.chats.any (fun c => c.id == aid) then loadChat aid s
    else createNewChat now s

/-- The sidebar title click handler: set active, persist, load. -/
def selectChat (cid : String) (s : AppState) : AppState :=
  loadChat cid (saveState { s with activeChatId := some cid })

/-- Mutate the first chat whose id matches, as the JS code mutates the
object returned by `find`/the closure-captured chat. -/
def updateChat (cid : String) (f : Chat → Chat) : List Chat → List Chat
  | [] => []
  | c :: cs => if c.id == cid then f c :: cs else c :: updateChat cid f cs

/-- The pin button handler: flip `pinned` on the clicked chat, persist. -/
def togglePin (cid : String) (s : AppState) : AppState :=
  saveState { s with chats := updateChat cid (fun c => { c with pinned := !c.pinned }) s.chats }

/-- `deleteChat(chatId)`: remove the first matching chat (`findIndex` +
`splice`); if it was active, fall back to the first remaining chat, or
create a fresh one when none remain; persist. -/
def deleteChat (now : Nat) (cid : String) (s : AppState) : AppState :=
  if s.chats.any (fun c => c.id == cid) then
    let remaining := s.chats.eraseP (fun c => c.id == cid)
    let s1 : AppState := { s with chats := remaining }
    let s2 :=
      if s1.activeChatId = some cid then
        match remaining with
        | c :: _ => loadChat c.id { s1 with activeChatId := some c.id }
        | [] => createNewChat now { s1 with activeChatId := none }
      else s1
    saveState s2
  else s

/-- JS `String.prototype.trim` on the input value. -/
def trimStr (s : String) : String :=
  ⟨((s.data.dropWhile Char.isWhitespace).reverse.dropWhile Char.isWhitespace).reverse⟩

/-- JS `String.prototype.slice(0, n)` / `substring(0, n)`. -/
def strTake (n : Nat) (s : String) : String := ⟨s.data.take n⟩

/-- The part of a `sendMessage` turn still pending when the `fetch`
suspends: the captured chat (`const chat = chats.find(...)`, kept by
id) and the request text. -/
structure Pending where
  originId : String
  text : String
deriving DecidableEq, Repr

/-- First half of `sendMessage()`, up to the `await fetch`: reject blank
input, append the user message to the active chat, derive the title
from a first message, persist, and show the typing indicator. Returns
the pending request when one was issued. -/
def sendMessagePhase1 (raw : String) (s : AppState) : AppState × Option Pending :=
  let text := trimStr raw
  if text = "" then (s, none)
  else
    match s.activeChatId.bind (fun aid => s.chats.find? (fun c => c.id == aid)) with
    | none => (s, none)
    | some c =>
      let addUser := fun ch : Chat =>
        { ch with messages := ch.messages ++ [⟨"user", text⟩],
                  title := if ch.title = "New Chat" then strTake 30 text else ch.title }
      let s1 := saveState { s with chats := updateChat c.id addUser s.chats,
                                   pane := s.pane ++ [⟨"user", text⟩] }
      ({ s1 with typing := true }, some ⟨c.id, text⟩)

/-- Outcome of the `fetch`: a network-level rejection, or an HTTP
response with its `ok` flag and its body when `res.json()` parses. -/
inductive FetchOutcome where
  | netError : FetchOutcome
  | response : Bool → Option JVal → FetchOutcome

/-- `data.reply` as rendered/stored by the success path; a missing or
non-string field is the JS `undefined` coerced to text. -/
def replyText (j : JVal) : String :=
  match j with
  | .jobj fs =>
    match fs.lookup "reply" with
    | some (.jstr r) => r
    | _ => "undefined"
  | _ => "undefined"

/-- The static failure-path text of `chat.js`. -/
def offlineMsgText : String := "Server error. Please try again."

/-- Second half of `sendMessage()`: the response handler. The success
path runs whenever `res.json()` parses — `res.ok` is never consulted —
and appends the reply to the chat captured at send time; the catch
path only renders the static offline text into the pane. -/
def sendMessageResponse (o : FetchOutcome) (req : Pending) (s : AppState) : AppState :=
  match o with
  | .response _ (some j) =>
    let r := replyText j
    saveState { s with typing := false,
                       chats := updateChat req.originId
                         (fun c => { c with messages := c.messages ++ [⟨"bot", r⟩] }) s.chats,
                       pane := s.pane ++ [⟨"bot", r⟩] }
  | _ =>
    { s with typing := false, pane := s.pane ++ [⟨"bot", offlineMsgText⟩] }

/-- The offline reply of the UK widget (`chatbot.js` catch path). -/
def chatbotOfflineText : String :=
  "I'm currently offline. Please start the backend server:\n\n```\ncd UK/backend\npython main.py\n```\n\nIn the meantime, visit [Action Fraud](https://www.actionfraud.police.uk) or [NCSC](https://www.ncsc.gov.uk) for official guidance."

/-- `data.answer` as the UK widget renders it. -/
def answerText (j : JVal) : String :=
  match j with
  | .jobj fs =>
    match fs.lookup "answer" with
    | some (.jstr r) => r
    | _ => "undefined"
  | _ => "undefined"

/-- The `sources` payload field, passed through to rendering. -/
def sourcesField (j : JVal) : Option JVal :=
  match j with
  | .jobj fs => fs.lookup "sources"
  | _ => none

/-- What one `sendChatMessage` turn of `chatbot.js` appends after the
typing indicator is removed. -/
inductive ChatbotReply where
  | answered : String → Option JVal → ChatbotReply
  | offline : ChatbotReply

/-- The response handling of `sendChatMessage` (`UK/scripts/chatbot.js`):
here a non-ok status throws before the body is read, so every non-2xx
lands on the offline path. -/
def sendChatMessage (o : FetchOutcome) : ChatbotReply :=
  match o with
  | .netError => .offline
  | .response false _ => .offline
  | .response true none => .offline
  | .response true (some j) => .answered (answerText j) (sourcesField j)

/-- The canonical Article entity built by the normalizer. -/
structure Article where
  title : String
  excerpt : String
  url : String
  icon : String
  category : String
  full_content : String
deriving DecidableEq, Repr

/-- A raw record as delivered by `GET /api/articles`; every field is
optional, `none` standing for a missing (JS `undefined`) field. -/
structure RawItem where
  url : Option String
  title : Option String
  content : Option String
  full_content : Option String
  excerpt : Option String
  category : Option String
deriving DecidableEq, Repr

/-- JS `a || b` on an optional string: the default wins when the field
is missing or the empty string (both falsy). -/
def truthyOr (v : Option String) (d : String) : String :=
  match v with
  | some s => if s = "" then d else s
  | none => d

/-- `item.full_content || item.content || ''`. -/
def resolvedContent (r : RawItem) : String :=
  truthyOr r.full_content (truthyOr r.content "")

/-- `item.url` as the truthiness checks see it. -/
def urlString (r : RawItem) : String := truthyOr r.url ""

/-- `item.title || ''`. -/
def titleString (r : RawItem) : String := truthyOr r.title ""

/-- `url.split(sep)` for a single-character separator — empty pieces
are kept, and the empty string splits to `[""]`. -/
def splitCharAux (sep : Char) : List Char → List Char → List String
  | [], acc => [⟨acc.reverse⟩]
  | c :: cs, acc =>
    if c = sep then ⟨acc.reverse⟩ :: splitCharAux sep cs []
    else splitCharAux sep cs (c :: acc)

/-- JS `String.prototype.split` with a one-character separator. -/
def splitChar (sep : Char) (s : String) : List String :=
  splitCharAux sep s.data []

/-- The global regex replace of each hyphen by a space. -/
def replaceDash (s : String) : String :=
  ⟨s.data.map (fun c => if c = '-' then ' ' else c)⟩

/-- A JS `\w` word character: ASCII letters, digits, underscore. -/
def isWordChar (c : Char) : Bool := c.isAlphanum || c = '_'

/-- `.replace(/\b\w/g, l => l.toUpperCase())`: uppercase every word
character not preceded by a word character. -/
def capWordsAux : Bool → List Char → List Char
  | _, [] => []
  | prevW, c :: cs =>
    (if isWordChar c && !prevW then c.toUpper else c) :: capWordsAux (isWordChar c) cs

/-- Capitalize the first letter of each word, JS-regex style. -/
def capWords (s : String) : String := ⟨capWordsAux false s.data⟩

/-- The URL-slug title fallback of `processArticles`: last non-empty
slash-separated piece of the URL (or the literal `'Cyber Security'`),
hyphens to spaces, then first letter of each word capitalized. -/
def deriveTitle (url : String) : String :=
  let parts := (splitChar '/' url).filter (fun p => !(p == ""))
  capWords (replaceDash (parts.getLast?.getD "Cyber Security"))

/-- `url.toLowerCase()`. -/
def lowerStr (s : String) : String := ⟨s.data.map Char.toLower⟩

/-- `p` occurs at the head of `l`. -/
def startsList : List Char → List Char → Bool
  | [], _ => true
  | _ :: _, [] => false
  | c :: cs, d :: ds => c == d && startsList cs ds

/-- `l` contains `p` as a contiguous run (JS `String.includes`). -/
def containsList (p : List Char) : List Char → Bool
  | [] => startsList p []
  | l@(_ :: ds) => startsList p l || containsList p ds

/-- JS `s.includes(pat)`. -/
def strContains (s pat : String) : Bool := containsList pat.data s.data

/-- `getCategoryFromUrl`: ordered, case-insensitive substring
heuristics over the full URL, first match wins. -/
def getCategoryFromUrl (url : String) : String :=
  let u := lowerStr url
  if strContains u "physical" then "Physical Security"
  else if strContains u "technical" then "Technical Security"
  else if strContains u "human" then "Human Security"
  else if strContains u "iot" || strContains u "internet-of-things" then "IoT Security"
  else if strContains u "threat" then "Threat Intelligence"
  else if strContains u "career" then "Careers"
  else if strContains u "social-engineering" || strContains u "scam" then "Social Engineering"
  else if strContains u "hacker" || strContains u "nation-state" then "Threat Actors"
  else if strContains u "attack" || strContains u "supply-chain" then "Attack Vectors"
  else if strContains u "vulnerabilit" then "Vulnerabilities"
  else if strContains u "cryptograph" || strContains u "quantum" then "Cryptography"
  else if strContains u "governance" || strContains u "protection" then "Governance"
  else "Cyber Security"

/-- `getCategoryIcon`: fixed lookup table, generic lock by default. -/
def getCategoryIcon (category : String) : String :=
  if category = "Physical Security" then "🏢"
  else if category = "Technical Security" then "💻"
  else if category = "Human Security" then "👥"
  else if category = "IoT Security" then "📱"
  else if category = "Threat Intelligence" then "⚠️"
  else if category = "Careers" then "💼"
  else if category = "Social Engineering" then "🎭"
  else if category = "Threat Actors" then "🕵️"
  else if category = "Attack Vectors" then "🎯"
  else if category = "Vulnerabilities" then "🛡️"
  else if category = "Cryptography" then "🔐"
  else if category = "Governance" then "📋"
  else if category = "Malware" then "🦠"
  else if category = "Cyber Security" then "🔒"
  else "🔒"

/-- The article object pushed by `processArticles` for an accepted
record (on accepted records `item.url` is a non-empty string, so the
`urlString` view coincides with the raw field). -/
def mkArticle (r : RawItem) : Article :=
  let content := resolvedContent r
  let t0 := titleString r
  let title :=
    if t0 == "" || t0 == "Unknown" || t0 == urlString r then deriveTitle (urlString r) else t0
  let category := truthyOr r.category (getCategoryFromUrl (urlString r))
  let excerpt := truthyOr r.excerpt (strTake 200 content ++ "...")
  { title := title, excerpt := excerpt, url := urlString r,
    icon := getCategoryIcon category, category := category, full_content := content }

/-- The body of `processArticles`: walk the records carrying the
`seenUrls` set; reject on missing url, already-seen url, or empty
resolved content; otherwise mark the url seen and push the article. -/
def processAux : List RawItem → List String → List Article
  | [], _ => []
  | r :: rest, seen =>
    if (urlString r == "") || seen.any (fun v => v == urlString r) || (resolvedContent r == "") then
      processAux rest seen
    else
      mkArticle r :: processAux rest (urlString r :: seen)

/-- `processArticles(data)`. -/
def processArticles (data : List RawItem) : List Article :=
  processAux data []

/-- Spec-side acceptance test: a record is viable when it has a truthy
url and truthy resolved content (the two per-record reject reasons). -/
def viableRaw (r : RawItem) : Bool :=
  !(urlString r == "") && !(resolvedContent r == "")

/-- Spec-side dedup: keep the first record of each url, given the urls
already seen. -/
def dedupByUrl : List String → List RawItem → List RawItem
  | _, [] => []
  | seen, r :: rest =>
    if seen.any (fun v => v == urlString r) then dedupByUrl seen rest
    else r :: dedupByUrl (urlString r :: seen) rest

/-- The feed view state owned by `main.js` (`state` global). -/
structure FeedState where
  articles : List Article
  filteredArticles : List Article
  visibleCount : Nat
  currentFilter : String
deriving DecidableEq, Repr

/-- `filterArticles(category)`: set the filter, reset pagination to 9,
recompute `filteredArticles` from `articles`. -/
def filterArticles (category : String) (s : FeedState) : FeedState :=
  { s with currentFilter := category,
           visibleCount := 9,
           filteredArticles :=
             if category = "all" then s.articles
             else s.articles.filter (fun a => a.category == category) }

/-- `loadMoreArticles()`: advance the pagination cursor by 9. -/
def loadMoreArticles (s : FeedState) : FeedState :=
  { s with visibleCount := s.visibleCount + 9 }

/-- The slice rendered by `renderArticleGrid`:
`state.filteredArticles.slice(0, state.visibleCount)`. -/
def visibleArticles (s : FeedState) : List Article :=
  s.filteredArticles.take s.visibleCount

/-- Visibility of the load-more affordance: hidden on the empty state,
otherwise shown iff `filteredArticles.length > visibleCount`. -/
def loadMoreShown (s : FeedState) : Bool :=
  if visibleArticles s = [] then false
  else decide (s.filteredArticles.length > s.visibleCount)

/-- Placeholder for the JS `undefined` read `state.articles[i]` would
yield out of range (`renderSuggestedArticles` is only reached with a
valid index, via `openArticle`'s guard). -/
def defaultArticle : Article := ⟨"", "", "", "", "", ""⟩

/-- The binary sort key of the related-article comparator: 0 for the
selected article's category, else 1. -/
def catRank (cur : Article) (a : Article) : Nat :=
  if a.category == cur.category then 0 else 1

/-- `renderSuggestedArticles(currentIndex)`: annotate each article with
its original index, drop the selected one, stable-sort by the binary
same-category key (ES2019 `Array.prototype.sort` is stable; modelled by
the stable `List.mergeSort`), and take the first three. -/
def renderSuggestedArticles (articles : List Article) (currentIndex : Nat) : List (Nat × Article) :=
  let current := articles.getD currentIndex defaultArticle
  let related := articles.enum.filter (fun p => !(p.1 == currentIndex))
  (related.mergeSort (fun a b => decide (catRank current a.2 ≤ catRank current b.2))).take 3

/-- The four-article configuration of the spec's ranking property:
A and C share category X, B and D share category Y. -/
def artA : Article := ⟨"A", "a", "https://e/a", "🔒", "X", "ca"⟩

/-- Second article of the ranking example (category Y). -/
def artB : Article := ⟨"B", "b", "https://e/b", "🔒", "Y", "cb"⟩

/-- Third article of the ranking example (category X). -/
def artC : Article := ⟨"C", "c", "https://e/c", "🔒", "X", "cc"⟩

/-- Fourth article of the ranking example (category Y). -/
def artD : Article := ⟨"D", "d", "https://e/d", "🔒", "Y", "cd"⟩

/-- A small synthetic article used to build concrete feed states. -/
def numArticle (n : Nat) : Article :=
  ⟨"T" ++ toString n, "e", "https://e/" ++ toString n, "🔒", "C", "c"⟩

/-- A feed state holding 25 articles, all matching the current filter,
paginated at the initial count of 9. -/
def feed25 : FeedState :=
  let arts := (List.range 25).map numArticle
  ⟨arts, arts, 9, "all"⟩

/-- The Conversation Store invariant: `activeChatId` names a chat that
is present in `chats`. -/
def storeInvB (s : AppState) : Bool :=
  match s.activeChatId with
  | some a => s.chats.any (fun c => c.id == a)
  | none => false

/-- The write-through contract: both `localStorage` keys hold the
serialization of the current store. -/
def persistedOK (s : AppState) : Prop :=
  s.storedChats = some (encodeChats s.chats) ∧
  s.storedActive = some (activeStr s.activeChatId)

/-- A first example chat (id `chat_1`). -/
def exChat1 : Chat := newChat 1

/-- A second example chat (id `chat_2`). -/
def exChat2 : Chat := newChat 2

/-- A single-conversation app state, freshly persisted, pane in sync. -/
def exApp1 : AppState :=
  ⟨[exChat1], some exChat1.id, some (encodeChats [exChat1]), some exChat1.id,
   exChat1.messages, false⟩

/-- A two-conversation app state with `chat_1` active. -/
def exApp2 : AppState :=
  ⟨[exChat1, exChat2], some exChat1.id, some (encodeChats [exChat1, exChat2]),
   some exChat1.id, exChat1.messages, false⟩

/-- The spec's title-backfill example record:
`{url: "https://x/a-b-c", title: "Unknown"}` with some content. -/
def rawEx1 : RawItem :=
  ⟨some "https://x/a-b-c", some "Unknown", some "body text", none, none, none⟩

/-- First of two records sharing one url. -/
def rawDup1 : RawItem :=
  ⟨some "https://e/one", some "First", some "content one", none, none, none⟩

/-- Second record with the same url as `rawDup1`. -/
def rawDup2 : RawItem :=
  ⟨some "https://e/one", some "Second", some "content two", none, none, none⟩

/-- C1 (counterexample): on a network failure the offline-guidance text
is only rendered into the message pane; it is never appended to the
conversation's `messages`, so after a failed turn on a fresh chat the
stored message sequence is just the seed plus the user message, and no
conversation contains the offline text. -/
theorem c1_counterexample :
    ((sendMessageResponse .netError ⟨"chat_1", "help me"⟩
        (sendMessagePhase1 "help me" exApp1).1).chats.map Chat.messages)
      = [[seedMsg, ⟨"user", "help me"⟩]] ∧
    ((sendMessageResponse .netError ⟨"chat_1", "help me"⟩
        (sendMessagePhase1 "help me" exApp1).1).chats.all
      (fun c => !(c.messages.contains ⟨"bot", offlineMsgText⟩))) = true := by
  decide

/-- C1 (amended): when the gateway call fails at the network level, the
pending typing indicator is removed and the fixed offline-guidance bot
message is appended to the rendered message pane only; the store — the
conversation list, the active id, and both persisted keys — is left
exactly as it was after the optimistic user-message append. -/
theorem c1_offline_handling (req : Pending) (s : AppState) :
    (sendMessageResponse .netError req s).typing = false ∧
    (sendMessageResponse .netError req s).pane = s.pane ++ [⟨"bot", offlineMsgText⟩] ∧
    (sendMessageResponse .netError req s).chats = s.chats ∧
    (sendMessageResponse .netError req s).activeChatId = s.activeChatId ∧
    (sendMessageResponse .netError req s).storedChats = s.storedChats ∧
    (sendMessageResponse .netError req s).storedActive = s.storedActive :=
  ⟨rfl, rfl, rfl, rfl, rfl, rfl⟩

/-- C4: `setFilter` recomputes `filtered` as the category-match
subsequence of `all` (identity for `"all"`), resets `visibleCount` to 9
whatever it was, leaves `all` alone, and the rendered slice is always
`filtered[0:visibleCount]`. -/
theorem c4_filter_invariant (s : FeedState) (category : String) :
    (filterArticles category s).filteredArticles =
      (if category = "all" then s.articles
       else s.articles.filter (fun a => a.category == category)) ∧
    (filterArticles category s).visibleCount = 9 ∧
    (filterArticles category s).currentFilter = category ∧
    (filterArticles category s).articles = s.articles ∧
    (filterArticles category s).filteredArticles.Sublist (filterArticles category s).articles ∧
    (∀ a ∈ (filterArticles category s).filteredArticles, category ≠ "all" → a.category = category) ∧
    visibleArticles (filterArticles category s) =
      (filterArticles category s).filteredArticles.take 9 := by
  refine ⟨rfl, rfl, rfl, rfl, ?_, ?_, rfl⟩
  · by_cases h : category = "all"
    · simp [filterArticles, h]
    · simp only [filterArticles, if_neg h]
      exact List.filter_sublist _
  · intro a ha hne
    simp only [filterArticles, if_neg hne] at ha
    exact by simpa using (List.mem_filter.mp ha).2

/-- Witness for C4 at a concrete state: filtering two articles by
category X resets the page size and every filtered member carries X. -/
theorem c4_filter_invariant_witness :
    (filterArticles "X" ⟨[artA, artB], [artA, artB], 17, "all"⟩).visibleCount = 9 ∧
    artA.category = "X" := by
  refine ⟨(c4_filter_invariant ⟨[artA, artB], [artA, artB], 17, "all"⟩ "X").2.1, ?_⟩
  exact (c4_filter_invariant ⟨[artA, artB], [artA, artB], 17, "all"⟩ "X").2.2.2.2.2.1
    artA (by decide) (by decide)

/-- C10: `loadMore` adds exactly 9 to the cursor without clamping and
touches nothing else; the rendered slice truncates at the end of
`filtered`; and from 25 filtered articles two `loadMore` calls reach a
cursor of 27, render all 25, and hide the load-more affordance. -/
theorem c10_pagination (s : FeedState) :
    (loadMoreArticles s).visibleCount = s.visibleCount + 9 ∧
    (loadMoreArticles s).filteredArticles = s.filteredArticles ∧
    (loadMoreArticles s).articles = s.articles ∧
    (s.filteredArticles.length ≤ s.visibleCount → visibleArticles s = s.filteredArticles) ∧
    visibleArticles (loadMoreArticles (loadMoreArticles feed25)) = feed25.filteredArticles ∧
    loadMoreShown (loadMoreArticles (loadMoreArticles feed25)) = false ∧
    (loadMoreArticles (loadMoreArticles feed25)).visibleCount = 27 := by
  refine ⟨rfl, rfl, rfl, ?_, by decide, by decide, by decide⟩
  intro h
  exact List.take_of_length_le h

/-- Witness for C10's truncation clause at a one-article state. -/
theorem c10_pagination_witness :
    visibleArticles ⟨[artA], [artA], 9, "all"⟩ = [artA] :=
  (c10_pagination ⟨[artA], [artA], 9, "all"⟩).2.2.2.1 (by decide)

/-- C6 (counterexample): in the Conversation Store chat, a response
with a non-success HTTP status whose body parses as JSON follows the
success path — the payload-derived reply is appended to the captured
conversation, contradicting the claim that a non-success status always
takes the failure path with no payload-derived reply. -/
theorem c6_counterexample :
    ((sendMessageResponse
        (.response false (some (.jobj [("reply", .jstr "BACKEND ERROR BODY")])))
        ⟨"chat_1", "q"⟩ exApp1).chats.map Chat.messages)
      = [[seedMsg, ⟨"bot", "BACKEND ERROR BODY"⟩]] := by
  decide

/-- C6 (amended): the UK widget's `sendChatMessage` does treat every
non-ok status (and every network failure or unparseable body) as the
offline path; the Conversation Store `sendMessage` ignores the status
entirely: its failure path is taken exactly when the fetch rejects or
the body fails to parse, and any response with a parseable JSON body —
success status or not — appends the payload-derived reply to the
captured chat. -/
theorem c6_status_handling (body : Option JVal) (j : JVal) (req : Pending)
    (s : AppState) (ok : Bool) :
    sendChatMessage (.response false body) = .offline ∧
    sendChatMessage .netError = .offline ∧
    sendChatMessage (.response true none) = .offline ∧
    sendChatMessage (.response true (some j)) = .answered (answerText j) (sourcesField j) ∧
    (sendMessageResponse .netError req s).chats = s.chats ∧
    (sendMessageResponse (.response ok none) req s).chats = s.chats ∧
    (sendMessageResponse (.response ok (some j)) req s).chats =
      updateChat req.originId
        (fun c => { c with messages := c.messages ++ [⟨"bot", replyText j⟩] }) s.chats := by
  refine ⟨rfl, rfl, rfl, rfl, rfl, ?_, rfl⟩
  cases ok <;> rfl

/-- Updating the chat with one id leaves lookups of any other id
unchanged, provided the update preserves the id. -/
theorem updateChat_find?_ne (l : List Chat) (a b : String) (f : Chat → Chat)
    (hid : ∀ c, (f c).id = c.id) (hne : a ≠ b) :
    (updateChat b f l).find? (fun c => c.id == a) = l.find? (fun c => c.id == a) := by
  induction l with
  | nil => rfl
  | cons c cs ih =>
    by_cases hcb : (c.id == b) = true
    · have hcb' : c.id = b := by simpa using hcb
      have hfa : ((f c).id == a) = false := by
        simp [hid c, hcb']
        exact fun h => hne h.symm
      have hca : (c.id == a) = false := by
        simp [hcb']
        exact fun h => hne h.symm
      simp [updateChat, hcb, List.find?, hfa, hca]
    · by_cases hca : (c.id == a) = true
      · simp [updateChat, hcb, List.find?, hca]
      · simp [updateChat, hcb, List.find?, hca, ih]

/-- Lookup of the updated id returns the updated chat, provided the
update preserves the id. -/
theorem updateChat_find?_eq (l : List Chat) (b : String) (f : Chat → Chat)
    (hid : ∀ c, (f c).id = c.id) :
    (updateChat b f l).find? (fun c => c.id == b) =
      (l.find? (fun c => c.id == b)).map f := by
  induction l with
  | nil => rfl
  | cons c cs ih =>
    by_cases hcb : (c.id == b) = true
    · have hfb : ((f c).id == b) = true := by simpa [hid c] using hcb
      simp [updateChat, hcb, List.find?, hfb]
    · simp [updateChat, hcb, List.find?, ih]

/-- C5 (counterexample): send in `chat_1`, switch to `chat_2` while the
request is in flight, then let the reply arrive: at response time the
active chat is `chat_2`, yet the reply lands in `chat_1`'s message list
and `chat_2` is untouched — the reply is not appended to the
conversation that is active at response time. -/
theorem c5_counterexample :
    (sendMessageResponse (.response true (some (.jobj [("reply", .jstr "late reply")])))
        ⟨"chat_1", "question"⟩
        (selectChat "chat_2" (sendMessagePhase1 "question" exApp2).1)).activeChatId
      = some "chat_2" ∧
    ((sendMessageResponse (.response true (some (.jobj [("reply", .jstr "late reply")])))
        ⟨"chat_1", "question"⟩
        (selectChat "chat_2" (sendMessagePhase1 "question" exApp2).1)).chats.map
      (fun c => (c.id, c.messages)))
      = [("chat_1", [seedMsg, ⟨"user", "question"⟩, ⟨"bot", "late reply"⟩]),
         ("chat_2", [seedMsg])] := by
  constructor
  · decide
  · decide

/-- C5 (amended): a reply arriving after the user switched
conversations is appended to the conversation captured when the send
began (the pending request's origin), not to the conversation active at
response time: the active conversation's stored record is unchanged and
the origin conversation gains the bot reply. -/
theorem c5_reply_routing (s : AppState) (req : Pending) (j : JVal) (ok : Bool)
    (act : String) (hact : s.activeChatId = some act) (hne : act ≠ req.originId) :
    (sendMessageResponse (.response ok (some j)) req s).activeChatId = s.activeChatId ∧
    (sendMessageResponse (.response ok (some j)) req s).chats.find? (fun c => c.id == act)
      = s.chats.find? (fun c => c.id == act) ∧
    (sendMessageResponse (.response ok (some j)) req s).chats.find?
        (fun c => c.id == req.originId)
      = (s.chats.find? (fun c => c.id == req.originId)).map
          (fun c => { c with messages := c.messages ++ [⟨"bot", replyText j⟩] }) := by
  refine ⟨rfl, ?_, ?_⟩
  · exact updateChat_find?_ne _ _ _ _ (fun c => rfl) hne
  · exact updateChat_find?_eq _ _ _ (fun c => rfl)

/-- Witness for C5's amended routing statement on the two-chat state
with `chat_2` active and a request originating from `chat_1`. -/
theorem c5_reply_routing_witness :
    (sendMessageResponse (.response true (some (.jstr "x"))) ⟨"chat_1", "q"⟩
        (selectChat "chat_2" exApp2)).chats.find? (fun c => c.id == "chat_2")
      = (selectChat "chat_2" exApp2).chats.find? (fun c => c.id == "chat_2") :=
  (c5_reply_routing (selectChat "chat_2" exApp2) ⟨"chat_1", "q"⟩ (.jstr "x") true
    "chat_2" (by decide) (by decide)).2.1

/-- The normalizer walk coincides with: drop non-viable records, then
keep the first record of each url. -/
theorem processAux_eq (data : List RawItem) :
    ∀ seen, processAux data seen = (dedupByUrl seen (data.filter viableRaw)).map mkArticle := by
  induction data with
  | nil => intro seen; rfl
  | cons r rest ih =>
    intro seen
    by_cases hu : (urlString r == "") = true
    · have hv : viableRaw r = false := by simp [viableRaw, hu]
      simp [processAux, hu, List.filter_cons, hv, ih]
    · by_cases hc : (resolvedContent r == "") = true
      · have hv : viableRaw r = false := by simp [viableRaw, hc]
        simp [processAux, hu, hc, List.filter_cons, hv, ih]
      · have hv : viableRaw r = true := by simp [viableRaw, hu, hc]
        by_cases hs : (seen.any (fun v => v == urlString r)) = true
        · simp [processAux, hu, hc, hs, List.filter_cons, hv, dedupByUrl, ih]
        · simp [processAux, hu, hc, hs, List.filter_cons, hv, dedupByUrl, ih]

/-- Spec-side dedup only ever drops records. -/
theorem dedupByUrl_sublist : ∀ (l : List RawItem) (seen : List String),
    (dedupByUrl seen l).Sublist l := by
  intro l
  induction l with
  | nil => intro seen; exact List.Sublist.refl _
  | cons r rest ih =>
    intro seen
    by_cases hs : (seen.any (fun v => v == urlString r)) = true
    · simp only [dedupByUrl, hs, if_true]
      exact (ih seen).cons r
    · simp only [dedupByUrl, hs, if_false, Bool.false_eq_true]
      exact (ih (urlString r :: seen)).cons₂ r

/-- The urls surviving dedup are pairwise distinct and disjoint from
the already-seen set. -/
theorem dedupByUrl_urls_nodup : ∀ (l : List RawItem) (seen : List String),
    ((dedupByUrl seen l).map urlString).Nodup ∧
    ∀ u ∈ (dedupByUrl seen l).map urlString, seen.any (fun v => v == u) = false := by
  intro l
  induction l with
  | nil => intro seen; simp [dedupByUrl]
  | cons r rest ih =>
    intro seen
    by_cases hs : (seen.any (fun v => v == urlString r)) = true
    · simpa [dedupByUrl, hs] using ih seen
    · simp only [dedupByUrl, hs, if_false, Bool.false_eq_true, List.map_cons]
      obtain ⟨ihn, ihd⟩ := ih (urlString r :: seen)
      refine ⟨List.nodup_cons.mpr ⟨?_, ihn⟩, ?_⟩
      · intro hmem
        have := ihd _ hmem
        simp [List.any_cons] at this
      · intro u hu
        rcases List.mem_cons.mp hu with h | h
        · subst h
          exact eq_false_of_ne_true (fun hxx => by rw [hxx] at hs; exact hs rfl)
        · have := ihd u h
          simp only [List.any_cons, Bool.or_eq_false_iff] at this
          exact this.2

/-- C3: the normalizer output is exactly the first-occurrence-per-url
selection of the viable records (truthy url, truthy resolved content),
each turned into an Article; output urls are pairwise distinct; the
selection is a sublist of the input, so output order is input order
minus the rejects; and on two records sharing a url exactly one
Article, built from the first, survives. -/
theorem c3_normalizer_dedup (data : List RawItem) :
    processArticles data = (dedupByUrl [] (data.filter viableRaw)).map mkArticle ∧
    ((processArticles data).map Article.url).Nodup ∧
    (dedupByUrl [] (data.filter viableRaw)).Sublist data ∧
    processArticles [rawDup1, rawDup2] = [mkArticle rawDup1] := by
  refine ⟨processAux_eq data [], ?_,
    (dedupByUrl_sublist _ _).trans (List.filter_sublist _), by decide⟩
  rw [show processArticles data = processAux data [] from rfl, processAux_eq data [],
    List.map_map]
  have h : (Article.url ∘ mkArticle) = urlString := funext (fun r => rfl)
  rw [h]
  exact (dedupByUrl_urls_nodup _ _).1

/-- C9: whenever the provided title is falsy, the literal `"Unknown"`,
or the url itself, the output title is the url-derived one (last
non-empty slash piece, hyphens to spaces, word-initial capitals); a url
with no non-empty pieces falls back to the literal `"Cyber Security"`;
and `{url: "https://x/a-b-c", title: "Unknown"}` normalizes to title
`"A B C"`. -/
theorem c9_title_backfill (r : RawItem) (u : String)
    (hbad : (titleString r == "" || titleString r == "Unknown"
              || titleString r == urlString r) = true)
    (hparts : ((splitChar '/' u).filter (fun p => !(p == ""))) = []) :
    (mkArticle r).title = deriveTitle (urlString r) ∧
    deriveTitle u = "Cyber Security" ∧
    (processArticles [rawEx1]).map Article.title = ["A B C"] := by
  refine ⟨?_, ?_, by decide⟩
  · simp only [mkArticle]
    rw [if_pos hbad]
  · simp only [deriveTitle]
    rw [hparts]
    decide

/-- Witness for C9: the example record's title is indeed derived from
its url, and an all-slash url has no pieces and falls back. -/
theorem c9_title_backfill_witness :
    (mkArticle rawEx1).title = deriveTitle (urlString rawEx1) ∧
    deriveTitle "///" = "Cyber Security" ∧
    (processArticles [rawEx1]).map Article.title = ["A B C"] :=
  c9_title_backfill rawEx1 "///" (by decide) (by decide)

/-- A stable sort by a binary key is the rank-0 elements followed by
the rank-1 elements, each group in original order. -/
theorem mergeSort_binary_key {α : Type} (key : α → Nat) (hkey : ∀ x, key x ≤ 1) :
    ∀ l : List α,
      l.mergeSort (fun a b => decide (key a ≤ key b)) =
        l.filter (fun x => key x == 0) ++ l.filter (fun x => !(key x == 0)) := by
  have trans : ∀ a b c : α,
      decide (key a ≤ key b) = true → decide (key b ≤ key c) = true →
      decide (key a ≤ key c) = true := by
    intro a b c hab hbc
    simp only [decide_eq_true_eq] at *
    omega
  have total : ∀ a b : α, (decide (key a ≤ key b) || decide (key b ≤ key a)) = true := by
    intro a b
    simp only [Bool.or_eq_true, decide_eq_true_eq]
    omega
  intro l
  induction l with
  | nil => simp
  | cons a l ih =>
    obtain ⟨l₁, l₂, h₁, h₂, h₃⟩ := List.mergeSort_cons trans total a l
    by_cases hk : key a = 0
    · have hl₁ : l₁ = [] := by
        cases hl : l₁ with
        | nil => rfl
        | cons b bs =>
          exfalso
          have hb := h₃ b (by rw [hl]; exact List.mem_cons_self b bs)
          simp only [Bool.not_eq_true', decide_eq_false_iff_not, hk] at hb
          exact hb (Nat.zero_le _)
      subst hl₁
      rw [List.nil_append] at h₁ h₂
      rw [h₁, ← h₂, ih, List.filter_cons, List.filter_cons]
      simp [hk]
    · have hk1 : key a = 1 := by have := hkey a; omega
      have hl₁0 : ∀ b ∈ l₁, key b = 0 := by
        intro b hb
        have h := h₃ b hb
        simp only [Bool.not_eq_true', decide_eq_false_iff_not, hk1] at h
        omega
      have hsorted := List.sorted_mergeSort trans total (a :: l)
      rw [h₁] at hsorted
      have hl₂1 : ∀ b ∈ l₂, key b = 1 := by
        intro b hb
        have hpair := (List.pairwise_append.mp hsorted).2.1
        have hrel := (List.pairwise_cons.mp hpair).1 b hb
        simp only [decide_eq_true_eq, hk1] at hrel
        have := hkey b
        omega
      have e : l₁ ++ l₂ =
          l.filter (fun x => key x == 0) ++ l.filter (fun x => !(key x == 0)) :=
        h₂.symm.trans ih
      have e0 := congrArg (List.filter (fun x => key x == 0)) e
      have e1 := congrArg (List.filter (fun x => !(key x == 0))) e
      rw [List.filter_append, List.filter_append] at e0 e1
      have f0l₁ : l₁.filter (fun x => key x == 0) = l₁ :=
        List.filter_eq_self.mpr (fun b hb => by simp [hl₁0 b hb])
      have f0l₂ : l₂.filter (fun x => key x == 0) = [] :=
        List.filter_eq_nil_iff.mpr (fun b hb => by simp [hl₂1 b hb])
      have f1l₁ : l₁.filter (fun x => !(key x == 0)) = [] :=
        List.filter_eq_nil_iff.mpr (fun b hb => by simp [hl₁0 b hb])
      have f1l₂ : l₂.filter (fun x => !(key x == 0)) = l₂ :=
        List.filter_eq_self.mpr (fun b hb => by simp [hl₂1 b hb])
      have ff0 : (l.filter (fun x => key x == 0)).filter (fun x => key x == 0)
          = l.filter (fun x => key x == 0) := by
        apply List.filter_eq_self.mpr
        intro b hb
        exact (List.mem_filter.mp hb).2
      have ff01 : (l.filter (fun x => !(key x == 0))).filter (fun x => key x == 0) = [] := by
        apply List.filter_eq_nil_iff.mpr
        intro b hb
        have h := (List.mem_filter.mp hb).2
        simp at h ⊢
        exact h
      have ff10 : (l.filter (fun x => key x == 0)).filter (fun x => !(key x == 0)) = [] := by
        apply List.filter_eq_nil_iff.mpr
        intro b hb
        have h := (List.mem_filter.mp hb).2
        simp at h ⊢
        exact h
      have ff1 : (l.filter (fun x => !(key x == 0))).filter (fun x => !(key x == 0))
          = l.filter (fun x => !(key x == 0)) := by
        apply List.filter_eq_self.mpr
        intro b hb
        exact (List.mem_filter.mp hb).2
      rw [f0l₁, f0l₂, ff0, ff01, List.append_nil, List.append_nil] at e0
      rw [f1l₁, f1l₂, ff10, ff1, List.nil_append, List.nil_append] at e1
      rw [h₁, e0, e1, List.filter_cons, List.filter_cons]
      simp [hk]

/-- The related-article comparator is the binary same-category key, so
the stable sort is: same-category entries first, then the rest, each in
original order. -/
theorem mergeSort_catRank (cur : Article) (l : List (Nat × Article)) :
    l.mergeSort (fun a b => decide (catRank cur a.2 ≤ catRank cur b.2)) =
      l.filter (fun p => p.2.category == cur.category) ++
      l.filter (fun p => !(p.2.category == cur.category)) := by
  have h0 : (fun p : Nat × Article => catRank cur p.2 == 0)
      = (fun p : Nat × Article => p.2.category == cur.category) := by
    funext p
    by_cases h : (p.2.category == cur.category) = true <;> simp [catRank, h]
  have h1 : (fun p : Nat × Article => !(catRank cur p.2 == 0))
      = (fun p : Nat × Article => !(p.2.category == cur.category)) := by
    funext p
    rw [show (catRank cur p.2 == 0) = (p.2.category == cur.category) from congrFun h0 p]
  rw [← h0, ← h1]
  exact mergeSort_binary_key (fun p : Nat × Article => catRank cur p.2)
    (fun p => by show catRank cur p.2 ≤ 1; unfold catRank; split <;> omega) l

/-- C8: related-article ranking drops the selected index, puts the
same-category survivors (in original order) before the rest (in
original order), and keeps the first three; on A(X), B(Y), C(X), D(Y)
with A selected it yields C, B, D. -/
theorem c8_related_ranking (articles : List Article) (i : Nat) :
    renderSuggestedArticles articles i =
      ((articles.enum.filter (fun p => !(p.1 == i))).filter
          (fun p => p.2.category == (articles.getD i defaultArticle).category) ++
        (articles.enum.filter (fun p => !(p.1 == i))).filter
          (fun p => !(p.2.category == (articles.getD i defaultArticle).category))).take 3 ∧
    (∀ p ∈ renderSuggestedArticles articles i, p.1 ≠ i) ∧
    renderSuggestedArticles [artA, artB, artC, artD] 0 = [(2, artC), (1, artB), (3, artD)] := by
  have hchar : ∀ (arts : List Article) (k : Nat),
      renderSuggestedArticles arts k =
        ((arts.enum.filter (fun p => !(p.1 == k))).filter
            (fun p => p.2.category == (arts.getD k defaultArticle).category) ++
          (arts.enum.filter (fun p => !(p.1 == k))).filter
            (fun p => !(p.2.category == (arts.getD k defaultArticle).category))).take 3 := by
    intro arts k
    simp only [renderSuggestedArticles]
    rw [mergeSort_catRank]
  refine ⟨hchar articles i, ?_, ?_⟩
  · intro p hp
    rw [hchar articles i] at hp
    have h2 := List.take_subset _ _ hp
    rcases List.mem_append.mp h2 with h | h
    all_goals
      have h3 := (List.mem_filter.mp h).1
      have h4 := (List.mem_filter.mp h3).2
      simpa using h4
  · rw [hchar]
    decide

/-- Witness for C8's exclusion clause: the top suggestion for the
four-article example does not carry the selected index. -/
theorem c8_related_ranking_witness : ((2 : Nat), artC).1 ≠ 0 :=
  (c8_related_ranking [artA, artB, artC, artD] 0).2.1 (2, artC)
    (by rw [(c8_related_ranking [artA, artB, artC, artD] 0).2.2]; decide)

/-- `loadChat` only repaints the pane: store and storage are as before. -/
theorem loadChat_store_fields (cid : String) (s : AppState) :
    (loadChat cid s).chats = s.chats ∧ (loadChat cid s).activeChatId = s.activeChatId ∧
    (loadChat cid s).storedChats = s.storedChats ∧
    (loadChat cid s).storedActive = s.storedActive := by
  unfold loadChat
  cases s.chats.find? (fun c => c.id == cid) <;> exact ⟨rfl, rfl, rfl, rfl⟩

/-- The store invariant only looks at `chats` and `activeChatId`. -/
theorem storeInvB_fields (s t : AppState) (hc : t.chats = s.chats)
    (ha : t.activeChatId = s.activeChatId) : storeInvB t = storeInvB s := by
  unfold storeInvB
  rw [hc, ha]

/-- An id-preserving update leaves the id membership test unchanged. -/
theorem any_id_updateChat (l : List Chat) (a b : String) (f : Chat → Chat)
    (hid : ∀ c, (f c).id = c.id) :
    (updateChat b f l).any (fun c => c.id == a) = l.any (fun c => c.id == a) := by
  induction l with
  | nil => rfl
  | cons c cs ih =>
    by_cases hcb : (c.id == b) = true
    · simp [updateChat, hcb, List.any_cons, hid c]
    · simp [updateChat, hcb, List.any_cons, ih]

/-- Erasing the chat with one id keeps any other id present. -/
theorem any_id_eraseP (l : List Chat) (a cid : String) (hne : a ≠ cid)
    (h : l.any (fun c => c.id == a) = true) :
    (l.eraseP (fun c => c.id == cid)).any (fun c => c.id == a) = true := by
  induction l with
  | nil => simp at h
  | cons c cs ih =>
    by_cases hcid : (c.id == cid) = true
    · have hc : c.id = cid := by simpa using hcid
      rw [List.eraseP_cons, hcid, cond_true]
      have hca : (c.id == a) = false := by
        rw [hc]
        exact beq_eq_false_iff_ne.mpr (Ne.symm hne)
      simp only [List.any_cons, hca, Bool.false_or] at h
      exact h
    · have hb : (c.id == cid) = false := by simpa using hcid
      rw [List.eraseP_cons, hb, cond_false]
      have h' : (c.id == a) = true ∨ (cs.any fun c => c.id == a) = true := by
        simpa using h
      simp only [List.any_cons]
      rcases h' with h1 | h2
      · simp [h1]
      · simp [ih h2]

/-- A freshly created chat is active and present. -/
theorem storeInvB_createNewChat (now : Nat) (s : AppState) :
    storeInvB (createNewChat now s) = true := by
  have h := loadChat_store_fields (newChat now).id
    (saveState { s with chats := newChat now :: s.chats, activeChatId := some (newChat now).id })
  unfold createNewChat
  rw [storeInvB_fields _ _ h.1 h.2.1]
  simp [storeInvB, saveState, List.any_cons]

/-- Deleting the active conversation with survivors left: the first
remaining chat (in store order) becomes active. -/
theorem deleteChat_active_cons (now : Nat) (cid : String) (s : AppState) (c : Chat)
    (rest : List Chat) (hany : (s.chats.any fun x => x.id == cid) = true)
    (hact : s.activeChatId = some cid)
    (hrem : s.chats.eraseP (fun x => x.id == cid) = c :: rest) :
    (deleteChat now cid s).activeChatId = some c.id ∧
    (deleteChat now cid s).chats = c :: rest := by
  have hl := loadChat_store_fields c.id
    { s with chats := c :: rest, activeChatId := some c.id }
  simp only [deleteChat, hany, if_true, hrem, hact]
  exact ⟨hl.2.1, hl.1⟩

/-- Deleting the sole (hence active) conversation: exactly one fresh
chat is created and becomes active. -/
theorem deleteChat_active_nil (now : Nat) (cid : String) (s : AppState)
    (hany : (s.chats.any fun x => x.id == cid) = true)
    (hact : s.activeChatId = some cid)
    (hrem : s.chats.eraseP (fun x => x.id == cid) = []) :
    (deleteChat now cid s).chats = [newChat now] ∧
    (deleteChat now cid s).activeChatId = some (newChat now).id := by
  have hl := loadChat_store_fields (newChat now).id
    (saveState { s with chats := [newChat now], activeChatId := some (newChat now).id })
  simp only [deleteChat, hany, if_true, hrem, hact, createNewChat]
  constructor
  · exact (loadChat_store_fields _ _).1
  · exact (loadChat_store_fields _ _).2.1

/-- Deleting a non-active conversation: the active pointer is kept and
only the matching chat is removed. -/
theorem deleteChat_inactive (now : Nat) (cid : String) (s : AppState)
    (hany : (s.chats.any fun x => x.id == cid) = true)
    (hact : ¬ s.activeChatId = some cid) :
    (deleteChat now cid s).activeChatId = s.activeChatId ∧
    (deleteChat now cid s).chats = s.chats.eraseP (fun x => x.id == cid) := by
  simp only [deleteChat, hany, if_true, hact, if_false]
  exact ⟨rfl, rfl⟩

/-- The invariant test, under a known active id. -/
theorem storeInvB_as_any (t : AppState) (a : String) (ha : t.activeChatId = some a) :
    storeInvB t = t.chats.any (fun c => c.id == a) := by
  unfold storeInvB
  rw [ha]

/-- The invariant test, under no active id. -/
theorem storeInvB_none (t : AppState) (ha : t.activeChatId = none) :
    storeInvB t = false := by
  unfold storeInvB
  rw [ha]

/-- Startup always leaves a valid active pointer. -/
theorem storeInvB_initApp (now : Nat) (s : AppState) :
    storeInvB (initApp now s) = true := by
  unfold initApp
  cases hA : s.activeChatId with
  | none => exact storeInvB_createNewChat now s
  | some aid =>
    show storeInvB (if (s.chats.any fun c => c.id == aid) = true then loadChat aid s
      else createNewChat now s) = true
    by_cases hany : (s.chats.any fun c => c.id == aid) = true
    · rw [if_pos hany]
      have h := loadChat_store_fields aid s
      rw [storeInvB_fields s (loadChat aid s) h.1 h.2.1, storeInvB_as_any s aid hA]
      exact hany
    · rw [if_neg hany]
      exact storeInvB_createNewChat now s

/-- Selecting an existing chat keeps the invariant. -/
theorem storeInvB_selectChat (cid : String) (s : AppState)
    (hany : (s.chats.any fun c => c.id == cid) = true) :
    storeInvB (selectChat cid s) = true := by
  have h := loadChat_store_fields cid (saveState { s with activeChatId := some cid })
  unfold selectChat
  rw [storeInvB_fields (saveState { s with activeChatId := some cid }) _ h.1 h.2.1]
  exact hany

/-- Pin toggling keeps the invariant. -/
theorem storeInvB_togglePin (cid : String) (s : AppState) (hinv : storeInvB s = true) :
    storeInvB (togglePin cid s) = true := by
  cases hA : s.activeChatId with
  | none =>
    rw [storeInvB_none s hA] at hinv
    exact absurd hinv Bool.false_ne_true
  | some a =>
    have hinv' : (s.chats.any fun c => c.id == a) = true := by
      rw [← storeInvB_as_any s a hA]
      exact hinv
    rw [storeInvB_as_any (togglePin cid s) a hA]
    exact (any_id_updateChat s.chats a cid
      (fun c => { c with pinned := !c.pinned }) (fun c => rfl)).trans hinv'

/-- Deleting any chat keeps the invariant. -/
theorem storeInvB_deleteChat (now : Nat) (cid : String) (s : AppState)
    (hinv : storeInvB s = true) : storeInvB (deleteChat now cid s) = true := by
  by_cases hany : (s.chats.any fun x => x.id == cid) = true
  · by_cases hact : s.activeChatId = some cid
    · cases hrem : s.chats.eraseP (fun x => x.id == cid) with
      | nil =>
        obtain ⟨h2, h1⟩ := deleteChat_active_nil now cid s hany hact hrem
        rw [storeInvB_as_any (deleteChat now cid s) (newChat now).id h1, h2]
        simp [List.any_cons]
      | cons c rest =>
        obtain ⟨h1, h2⟩ := deleteChat_active_cons now cid s c rest hany hact hrem
        rw [storeInvB_as_any (deleteChat now cid s) c.id h1, h2]
        simp [List.any_cons]
    · cases hA : s.activeChatId with
      | none =>
        rw [storeInvB_none s hA] at hinv
        exact absurd hinv Bool.false_ne_true
      | some a =>
        obtain ⟨h1, h2⟩ := deleteChat_inactive now cid s hany hact
        have hne : a ≠ cid := by
          intro hcontra
          apply hact
          rw [hA, hcontra]
        have hinv' : (s.chats.any fun x => x.id == a) = true := by
          rw [← storeInvB_as_any s a hA]
          exact hinv
        rw [storeInvB_as_any (deleteChat now cid s) a (by rw [h1, hA]), h2]
        exact any_id_eraseP s.chats a cid hne hinv'
  · have hid : deleteChat now cid s = s := by
      unfold deleteChat
      rw [if_neg hany]
    rw [hid]
    exact hinv

/-- The optimistic half of a send turn keeps the invariant. -/
theorem storeInvB_phase1 (raw : String) (s s1 : AppState) (pend : Option Pending)
    (hinv : storeInvB s = true) (h : sendMessagePhase1 raw s = (s1, pend)) :
    storeInvB s1 = true := by
  unfold sendMessagePhase1 at h
  by_cases ht : trimStr raw = ""
  · rw [if_pos ht] at h
    injection h with h1 h2
    rw [← h1]
    exact hinv
  · rw [if_neg ht] at h
    cases hf : s.activeChatId.bind (fun aid => s.chats.find? fun c => c.id == aid) with
    | none =>
      rw [hf] at h
      injection h with h1 h2
      rw [← h1]
      exact hinv
    | some c =>
      rw [hf] at h
      injection h with h1 h2
      rw [← h1]
      cases hA : s.activeChatId with
      | none =>
        rw [storeInvB_none s hA] at hinv
        exact absurd hinv Bool.false_ne_true
      | some a =>
        have hinv' : (s.chats.any fun x => x.id == a) = true := by
          rw [← storeInvB_as_any s a hA]
          exact hinv
        exact (any_id_updateChat s.chats a c.id
          (fun ch => { ch with
            messages := ch.messages ++ [⟨"user", trimStr raw⟩],
            title := if ch.title = "New Chat" then strTake 30 (trimStr raw) else ch.title })
          (fun x => rfl)).trans hinv'

/-- The response half of a send turn keeps the invariant. -/
theorem storeInvB_response (o : FetchOutcome) (req : Pending) (s : AppState)
    (hinv : storeInvB s = true) : storeInvB (sendMessageResponse o req s) = true := by
  cases hA : s.activeChatId with
  | none =>
    rw [storeInvB_none s hA] at hinv
    exact absurd hinv Bool.false_ne_true
  | some a =>
    have hinv' : (s.chats.any fun x => x.id == a) = true := by
      rw [← storeInvB_as_any s a hA]
      exact hinv
    cases o with
    | netError =>
      rw [storeInvB_as_any (sendMessageResponse .netError req s) a hA]
      exact hinv'
    | response ok body =>
      cases body with
      | none =>
        rw [storeInvB_as_any (sendMessageResponse (.response ok none) req s) a hA]
        exact hinv'
      | some j =>
        rw [storeInvB_as_any (sendMessageResponse (.response ok (some j)) req s) a hA]
        exact (any_id_updateChat s.chats a req.originId
          (fun ch => { ch with messages := ch.messages ++ [⟨"bot", replyText j⟩] })
          (fun x => rfl)).trans hinv'

/-- C2: after startup and after every store operation the active id
names a stored conversation; deleting the active non-sole conversation
reassigns to the first remaining chat in store order; deleting the sole
conversation leaves exactly one fresh chat — default title, single seed
bot message — which becomes active. -/
theorem c2_active_id_invariant (s s1 : AppState) (now : Nat) (cid raw : String)
    (pend : Option Pending) (o : FetchOutcome) (req : Pending) :
    storeInvB (initApp now s) = true ∧
    storeInvB (createNewChat now s) = true ∧
    ((s.chats.any fun c => c.id == cid) = true → storeInvB (selectChat cid s) = true) ∧
    (storeInvB s = true → storeInvB (togglePin cid s) = true) ∧
    (storeInvB s = true → storeInvB (deleteChat now cid s) = true) ∧
    (storeInvB s = true → sendMessagePhase1 raw s = (s1, pend) → storeInvB s1 = true) ∧
    (storeInvB s = true → storeInvB (sendMessageResponse o req s) = true) ∧
    (s.activeChatId = some cid → (s.chats.any fun x => x.id == cid) = true →
      ∀ c rest, s.chats.eraseP (fun x => x.id == cid) = c :: rest →
        (deleteChat now cid s).activeChatId = some c.id ∧
        (deleteChat now cid s).chats = c :: rest) ∧
    (∀ c : Chat, s.chats = [c] → s.activeChatId = some c.id → c.id = cid →
      (deleteChat now cid s).chats = [newChat now] ∧
      (deleteChat now cid s).activeChatId = some (newChat now).id ∧
      (newChat now).title = "New Chat" ∧ (newChat now).messages = [seedMsg]) := by
  refine ⟨storeInvB_initApp now s, storeInvB_createNewChat now s,
    storeInvB_selectChat cid s, storeInvB_togglePin cid s,
    storeInvB_deleteChat now cid s, storeInvB_phase1 raw s s1 pend,
    storeInvB_response o req s, ?_, ?_⟩
  · intro hact hany c rest hrem
    exact deleteChat_active_cons now cid s c rest hany hact hrem
  · intro c hsole hact hcid
    have hb : (c.id == cid) = true := beq_iff_eq.mpr hcid
    have hany : (s.chats.any fun x => x.id == cid) = true := by
      rw [hsole]
      simp [List.any_cons, hb]
    have hact' : s.activeChatId = some cid := by
      rw [hact, hcid]
    have hrem : s.chats.eraseP (fun x => x.id == cid) = [] := by
      rw [hsole, List.eraseP_cons, hb, cond_true]
    obtain ⟨h1, h2⟩ := deleteChat_active_nil now cid s hany hact' hrem
    exact ⟨h1, h2, rfl, rfl⟩

/-- Witness for C2 on the concrete one-chat store: selecting the
present chat, toggling its pin, and deleting it all keep the invariant,
and the sole-delete leaves one fresh active chat. -/
theorem c2_active_id_invariant_witness :
    storeInvB (selectChat "chat_1" exApp1) = true ∧
    storeInvB (togglePin "chat_1" exApp1) = true ∧
    storeInvB (deleteChat 9 "chat_1" exApp1) = true ∧
    (deleteChat 9 "chat_1" exApp1).chats = [newChat 9] := by
  have h := c2_active_id_invariant exApp1 exApp1 9 "chat_1" "" none .netError ⟨"chat_1", ""⟩
  refine ⟨h.2.2.1 (by decide), h.2.2.2.1 (by decide), h.2.2.2.2.1 (by decide), ?_⟩
  exact (h.2.2.2.2.2.2.2.2 exChat1 (by decide) (by decide) (by decide)).1

/-- One message survives the JSON round trip. -/
theorem decodeMsg_encodeMsg (m : Msg) : decodeMsg (encodeMsg m) = some m := rfl

/-- A message list survives the JSON round trip. -/
theorem decodeMsgs_map (ms : List Msg) : decodeMsgs (ms.map encodeMsg) = some ms := by
  induction ms with
  | nil => rfl
  | cons m ms ih =>
    show (match decodeMsg (encodeMsg m), decodeMsgs (ms.map encodeMsg) with
          | some m, some ms => some (m :: ms)
          | _, _ => none) = some (m :: ms)
    rw [decodeMsg_encodeMsg, ih]

/-- One conversation survives the JSON round trip. -/
theorem decodeChat_encodeChat (c : Chat) : decodeChat (encodeChat c) = some c := by
  have h : decodeChat (encodeChat c) =
      (match decodeMsgs (c.messages.map encodeMsg) with
       | some msgs => some ⟨c.id, c.title, msgs, c.pinned⟩
       | none => none) := rfl
  rw [h, decodeMsgs_map]

/-- A conversation list survives the JSON round trip. -/
theorem decodeChats_encodeChats (cs : List Chat) :
    decodeChats (encodeChats cs) = some cs := by
  show decodeChatList (cs.map encodeChat) = some cs
  induction cs with
  | nil => rfl
  | cons c cs ih =>
    show (match decodeChat (encodeChat c), decodeChatList (cs.map encodeChat) with
          | some c, some cs => some (c :: cs)
          | _, _ => none) = some (c :: cs)
    rw [decodeChat_encodeChat, ih]

/-- C7: the persisted form of the store reads back identically — same
conversations with ids, messages and pin flags, same active id (any
non-empty id string survives the `"null"`-coercing write and the
falsy-guarded read) — and every mutating operation (create, select,
pin/unpin, delete, both message appends of a send turn) leaves
`localStorage` holding the serialization of the store it returns. -/
theorem c7_persistence_roundtrip (cs : List Chat) (a : String) (ha : a ≠ "")
    (s s1 : AppState) (now : Nat) (cid raw : String) (req : Pending)
    (ok : Bool) (j : JVal) :
    loadChats (some (encodeChats cs)) = cs ∧
    loadActive (some (activeStr (some a))) = some a ∧
    persistedOK (createNewChat now s) ∧
    persistedOK (selectChat cid s) ∧
    persistedOK (togglePin cid s) ∧
    ((s.chats.any fun c => c.id == cid) = true → persistedOK (deleteChat now cid s)) ∧
    (sendMessagePhase1 raw s = (s1, some req) → persistedOK s1) ∧
    persistedOK (sendMessageResponse (.response ok (some j)) req s) ∧
    (persistedOK s → s.activeChatId = some a →
      loadChats s.storedChats = s.chats ∧ loadActive s.storedActive = some a) := by
  have hloadAll : ∀ cs' : List Chat, loadChats (some (encodeChats cs')) = cs' := by
    intro cs'
    show (decodeChats (encodeChats cs')).getD [] = cs'
    rw [decodeChats_encodeChats]
    rfl
  have hactive : loadActive (some (activeStr (some a))) = some a := by
    show (if a = "" then none else some a) = some a
    rw [if_neg ha]
  refine ⟨hloadAll cs, hactive, ?_, ?_, ⟨rfl, rfl⟩, ?_, ?_, ⟨rfl, rfl⟩, ?_⟩
  · have h := loadChat_store_fields (newChat now).id
      (saveState { s with chats := newChat now :: s.chats,
                          activeChatId := some (newChat now).id })
    unfold createNewChat
    exact ⟨h.2.2.1.trans (by rw [h.1]; rfl), h.2.2.2.trans (by rw [h.2.1]; rfl)⟩
  · have h := loadChat_store_fields cid (saveState { s with activeChatId := some cid })
    unfold selectChat
    exact ⟨h.2.2.1.trans (by rw [h.1]; rfl), h.2.2.2.trans (by rw [h.2.1]; rfl)⟩
  · intro hany
    unfold deleteChat
    rw [if_pos hany]
    exact ⟨rfl, rfl⟩
  · intro h
    unfold sendMessagePhase1 at h
    by_cases ht : trimStr raw = ""
    · rw [if_pos ht] at h
      injection h with h1 h2
      cases h2
    · rw [if_neg ht] at h
      cases hf : s.activeChatId.bind (fun aid => s.chats.find? fun c => c.id == aid) with
      | none =>
        rw [hf] at h
        injection h with h1 h2
        cases h2
      | some c =>
        rw [hf] at h
        injection h with h1 h2
        rw [← h1]
        exact ⟨rfl, rfl⟩
  · intro hps hA
    constructor
    · rw [hps.1]
      exact hloadAll s.chats
    · rw [hps.2, hA]
      exact hactive

/-- Witness for C7 on the concrete one-chat store: its serialization
reads back as itself, the non-empty active id round-trips, and deleting
its chat leaves the storage keys holding the new store. -/
theorem c7_persistence_roundtrip_witness :
    loadChats (some (encodeChats [exChat1])) = [exChat1] ∧
    loadActive (some (activeStr (some "chat_1"))) = some "chat_1" ∧
    persistedOK (deleteChat 9 "chat_1" exApp1) ∧
    loadChats exApp1.storedChats = exApp1.chats ∧
    loadActive exApp1.storedActive = some "chat_1" := by
  have h := c7_persistence_roundtrip [exChat1] "chat_1" (by decide) exApp1 exApp1 9
    "chat_1" "" ⟨"chat_1", ""⟩ true (.jstr "x")
  have h9 := h.2.2.2.2.2.2.2.2 ⟨rfl, rfl⟩ (by decide)
  exact ⟨h.1, h.2.1, h.2.2.2.2.2.1 (by decide), h9.1, h9.2⟩
